import Mathlib

/-!
Verification of the ProbeGenerator statement-resolution and coordinate-algebra
engine against its specification.

The Python sources are shallowly embedded:

* Python `int` is `Int` (floor division `//` is `Int.fdiv`);
* fallible code (raised exceptions, `KeyError`, `IndexError`) returns `Option`
  or `Except`;
* the `SequenceRange` namedtuple and the `Transcript` row wrapper become
  structures; the CSV/regex parsing layers (out of scope here) are assumed to
  have produced the numeric fields already.
-/

namespace ProbeGen

/-- DNA complementation table.  In the source this is the
`str.maketrans('acgtACGT', 'tgcaTGCA')` table of `print_probes.py` (and,
equivalently, the `_COMPLEMENT` dict of `snp_statement.py`).  It also stands in
for `sequence.complement`, which is called by `snp_probe.py` but whose module
of origin is stale in the tree.  Modelled from the spec: the "exact complement"
used by genome-buffered probes, case-preserving; characters outside `acgtACGT`
are left unchanged, as `str.translate` does. -/
def complement : Char → Char
  | 'a' => 't'
  | 'c' => 'g'
  | 'g' => 'c'
  | 't' => 'a'
  | 'A' => 'T'
  | 'C' => 'G'
  | 'G' => 'C'
  | 'T' => 'A'
  | c => c

/-- Embedding of `reverse_complement` from `print_probes.py` (also defined identically in
`__main__.py`): complement every character, then reverse. -/
def reverse_complement (s : String) : String :=
  String.mk ((s.data.map complement).reverse)

/-- The `SequenceRange` namedtuple of `sequence_range.py`.  The Python field
`end` is called `stop` here because `end` is a Lean keyword. -/
structure SequenceRange where
  chromosome : String
  start : Int
  stop : Int
  reverse_complement : Bool
  reference : Option String
  mutation : Option String
deriving DecidableEq

/-- Embedding of `SequenceRange.__new__`: `reverse_complement` and `mutation` are
keyword-only in Python; if `reverse_complement` is true and the mutation is not
`None`, the stored mutation is reverse-complemented. -/
def mkSequenceRange (chromosome : String) (start stop : Int)
    (rc : Bool) (reference : Option String) (mutation : Option String) :
    SequenceRange :=
  let the_mutation :=
    if rc && mutation.isSome then mutation.map reverse_complement else mutation
  ⟨chromosome, start, stop, rc, reference, the_mutation⟩

/-- Embedding of `SequenceRange.adjacent`: equal chromosome, mutation and
reverse-complement tags, and one range starts where the other ends. -/
def SequenceRange.adjacent (a b : SequenceRange) : Bool :=
  ((a.chromosome == b.chromosome) && (a.mutation == b.mutation) &&
    (a.reverse_complement == b.reverse_complement)) &&
  ((a.start == b.stop) || (a.stop == b.start))

/-- Embedding of `SequenceRange.concat`.  The Python method raises `ValueError` on
non-adjacent input; that failure is `none` here.  The result is rebuilt through
the constructor (`mkSequenceRange`), with `self`'s mutation and
reverse-complement tag and no reference. -/
def SequenceRange.concat (a b : SequenceRange) : Option SequenceRange :=
  if a.adjacent b then
    if a.stop == b.start then
      some (mkSequenceRange a.chromosome a.start b.stop
        a.reverse_complement none a.mutation)
    else if a.start == b.stop then
      some (mkSequenceRange a.chromosome b.start a.stop
        a.reverse_complement none a.mutation)
    else none  -- `assert False, "unreachable"` in the source
  else none

/-- Loop body of `SequenceRange.condense`.  The `none` branch of `concat` is
unreachable because `concat` succeeds exactly on adjacent inputs. -/
def condenseGo (chunk : SequenceRange) : List SequenceRange → List SequenceRange
  | [] => [chunk]
  | other :: rest =>
    if chunk.adjacent other then
      match chunk.concat other with
      | some c => condenseGo c rest
      | none => condenseGo chunk rest
    else chunk :: condenseGo other rest

/-- Embedding of `SequenceRange.condense`: greedy left-to-right fold concatenating adjacent
runs. -/
def SequenceRange.condense (self : SequenceRange) (others : List SequenceRange) :
    List SequenceRange :=
  condenseGo self others

/-- Python list indexing `l[i]`, including the negative-index-from-the-end
convention; out-of-bounds (`IndexError`) is `none`. -/
def pyGet {α : Type} (l : List α) (i : Int) : Option α :=
  if 0 ≤ i then l.get? i.toNat
  else
    let j := (l.length : Int) + i
    if 0 ≤ j then l.get? j.toNat else none

/-- Embedding of `range(a, b)` over Python ints. -/
def intRange (a b : Int) : List Int :=
  (List.range (b - a).toNat).map (fun k : Nat => a + (k : Int))

/-- The `Transcript` of `transcript.py`: a row of a UCSC annotation table.
The raw row stores `exonStarts`/`exonEnds` as comma-separated strings and the
CDS bounds as strings; that tokenizing is out of scope, so the numeric values
appear here directly.  `plus_strand` is `strand == '+'`; `chromosome` already
has the `chr` prefix stripped, as in `Transcript.__init__`. -/
structure Transcript where
  name : String
  gene_id : String
  chromosome : String
  plus_strand : Bool
  exonStarts : List Int
  exonEnds : List Int
  cdsStart : Int
  cdsEnd : Int
deriving DecidableEq

/-- Embedding of `Transcript.exons`: zip the start/end lists, reverse the list when the
transcript is on the minus strand, and wrap each pair in a `SequenceRange`. -/
def Transcript.exons (t : Transcript) : List SequenceRange :=
  let positions := t.exonStarts.zip t.exonEnds
  let positions := if !t.plus_strand then positions.reverse else positions
  positions.map (fun p => mkSequenceRange t.chromosome p.1 p.2 false none none)

/-- The UTR-trimming loop of `Transcript.coding_exons`, with Python's chained
comparisons written as conjunctions and `break` as early return of the
accumulated prefix.  The final branch is `assert False, "unreachable"` in the
source; it is indeed unreachable whenever `exon.start ≤ exon.stop`. -/
def codingExonsGo (cds_start cds_end : Int) :
    List SequenceRange → List (Int × Int)
  | [] => []
  | exon :: rest =>
    if exon.stop < cds_start then
      codingExonsGo cds_start cds_end rest
    else if exon.start ≤ cds_start ∧ cds_start ≤ cds_end ∧ cds_end ≤ exon.stop then
      [(cds_start, cds_end)]
    else if exon.start ≤ cds_start ∧ cds_start ≤ exon.stop then
      (cds_start, exon.stop) :: codingExonsGo cds_start cds_end rest
    else if cds_start ≤ exon.start ∧ exon.start ≤ exon.stop ∧ exon.stop ≤ cds_end then
      (exon.start, exon.stop) :: codingExonsGo cds_start cds_end rest
    else if exon.start ≤ cds_end ∧ cds_end ≤ exon.stop then
      [(exon.start, cds_end)]
    else if cds_end ≤ exon.start then
      []
    else
      []

/-- Embedding of `Transcript.coding_exons`: `exons` with the UTRs trimmed out.  The exon
list is put back into genome order for the scan (minus-strand transcripts get
reversed twice) and the result is returned in transcription order. -/
def Transcript.coding_exons (t : Transcript) : List SequenceRange :=
  let exon_positions := t.exons
  let exon_positions :=
    if !t.plus_strand then exon_positions.reverse else exon_positions
  let positions := codingExonsGo t.cdsStart t.cdsEnd exon_positions
  let positions := if !t.plus_strand then positions.reverse else positions
  positions.map (fun p => mkSequenceRange t.chromosome p.1 p.2 false none none)

/-- Embedding of `Transcript.__len__`: the number of coding nucleotides,
`sum(exon.end - exon.start for exon in coding_exons())`. -/
def Transcript.len (t : Transcript) : Int :=
  (t.coding_exons.map (fun exon => exon.stop - exon.start)).sum

/-- The flattened genomic coordinates of the coding nucleotides, in
transcription order: the `itertools.chain` of per-exon coordinate ranges
(each reversed on the minus strand) built by `Transcript._transcript_index`. -/
def Transcript.coding_coordinates (t : Transcript) : List Int :=
  t.coding_exons.flatMap (fun exon =>
    let nucleotide_range := intRange exon.start exon.stop
    if !t.plus_strand then nucleotide_range.reverse else nucleotide_range)

/-- Embedding of `Transcript._transcript_index`: the 0-based genomic index of the coding
nucleotide with 1-based transcript index `index`.  `islice` with a negative
position raises in Python, and running off the end raises `OutOfRange`; both
are `none`. -/
def Transcript.transcript_index (t : Transcript) (index : Int) : Option Int :=
  if index < 1 then none
  else t.coding_coordinates.get? (index - 1).toNat

/-- Embedding of `Transcript.nucleotide_index`: the 1-base `SequenceRange` of the coding
nucleotide at the given 1-based index. -/
def Transcript.nucleotide_index (t : Transcript) (index : Int) :
    Option SequenceRange :=
  (t.transcript_index index).map (fun base_index =>
    mkSequenceRange t.chromosome base_index (base_index + 1) false none none)

/-- Embedding of `Transcript.codon_index`: resolve coding nucleotide `index*3`, then widen
to the 3-base window `[g-2, g+1)` on the plus strand or `[g, g+3)` on the
minus strand, passing `reference`/`mutation` to the constructor. -/
def Transcript.codon_index (t : Transcript) (index : Int)
    (reference mutation : Option String) : Option SequenceRange :=
  (t.transcript_index (index * 3)).map (fun base_index =>
    if t.plus_strand then
      mkSequenceRange t.chromosome (base_index - 2) (base_index + 1)
        false reference mutation
    else
      mkSequenceRange t.chromosome base_index (base_index + 3)
        false reference mutation)

/-- The scan loop of `Transcript.base_index`: try successive 1-based indices,
returning the first whose nucleotide starts at `s`.  A failing inner
`nucleotide_index` propagates (`none`), as the uncaught `OutOfRange` does. -/
def baseIndexGo (t : Transcript) (s : Int) : List Int → Option Int
  | [] => none
  | i :: rest =>
    match t.transcript_index i with
    | none => none
    | some b => if s = b then some i else baseIndexGo t s rest

/-- Embedding of `Transcript.base_index`: linear scan of `range(1, len(self)+1)` for the
first index whose nucleotide starts where `sequence_range` starts;
`OutOfRange` (not found) is `none`. -/
def Transcript.base_index (t : Transcript) (sequence_range : SequenceRange) :
    Option Int :=
  baseIndexGo t sequence_range.start (intRange 1 (t.len + 1))

/-- Embedding of `Transcript.exon`: the 1-based exon lookup `self.exons()[index-1]`;
`NoFeature` (an `IndexError`) is `none`. -/
def Transcript.exon (t : Transcript) (index : Int) : Option SequenceRange :=
  pyGet t.exons (index - 1)

/-- Embedding of `Transcript.transcript_range`: the condensed genomic ranges covering the
1-based, half-open transcript interval `[start, stop)`.  An out-of-range
nucleotide propagates as `none`; so does the empty interval, on which the
source's `SequenceRange.condense(*ranges)` call raises a `TypeError`. -/
def Transcript.transcript_range (t : Transcript) (start stop : Int) :
    Option (List SequenceRange) := do
  let ranges ← (intRange start stop).mapM t.nucleotide_index
  match ranges with
  | [] => none
  | r :: rest => some (r.condense rest)

/-- The `AbstractVariant` state of `variant.py`: transcript, minimal mutated
`SequenceRange`, reference and mutation subsequences, and the total desired
probe length.  `__init__` stores the length in `_length` (returned by
`__len__`); the `length` read by both `sequence_ranges` methods is that stored
value — the source's `self.length` attribute access itself raises
`AttributeError`, see claim C5. -/
structure Variant where
  transcript : Transcript
  index : SequenceRange
  reference : String
  mutation : String
  length : Int
deriving DecidableEq

/-- Embedding of `TranscriptVariant.sequence_ranges`: flanks are transcript slices; flank
lengths are swapped for minus-strand transcripts before the
`transcript_range` lookups, and the produced list is reversed before return.
Failures of `base_index`/`transcript_range` propagate. -/
def TranscriptVariant.sequence_ranges (v : Variant) :
    Option (List SequenceRange) := do
  let chromosome := v.index.chromosome
  let start := v.index.start
  let reference_length : Int := v.reference.length
  let mutation_length : Int := v.mutation.length
  let total_buffer := v.length - mutation_length
  let left_buffer := Int.fdiv total_buffer 2
  let right_buffer := total_buffer - left_buffer
  let base ← v.transcript.base_index v.index
  let lb := if !v.transcript.plus_strand then right_buffer else left_buffer
  let rb := if !v.transcript.plus_strand then left_buffer else right_buffer
  let left_part ← v.transcript.transcript_range (base - lb) base
  let right_part ← v.transcript.transcript_range (base + reference_length)
    (base + reference_length + rb)
  let sequence := left_part ++
    [mkSequenceRange chromosome start (start + reference_length)
      (!v.transcript.plus_strand) none (some v.mutation)] ++
    right_part
  pure (if v.transcript.plus_strand then sequence else sequence.reverse)

/-- Embedding of `GenomeVariant.sequence_ranges`: straight genomic-coordinate arithmetic,
no exon awareness; the mutation segment carries the mutation payload and the
strand-derived reverse-complement flag. -/
def GenomeVariant.sequence_ranges (v : Variant) :
    SequenceRange × SequenceRange × SequenceRange :=
  let chromosome := v.index.chromosome
  let start := v.index.start
  let reference_length : Int := v.reference.length
  let mutation_length : Int := v.mutation.length
  let total_buffer := v.length - mutation_length
  let left_buffer := Int.fdiv total_buffer 2
  let right_buffer := total_buffer - left_buffer
  (mkSequenceRange chromosome (start - left_buffer) start false none none,
   mkSequenceRange chromosome start (start + reference_length)
     (!v.transcript.plus_strand) none (some v.mutation),
   mkSequenceRange chromosome (start + reference_length)
     (start + reference_length + right_buffer) false none none)

/-- A parsed exon-fusion statement (`exon_probe._parse` output).  `none` in
`exon1`/`exon2`/`bases1`/`bases2` is the glob `'*'`; a side is one of
`'+'`, `'-'`, `'*'`. -/
structure ExonStatement where
  gene1 : String
  exon1 : Option Int
  side1 : Char
  bases1 : Option Int
  gene2 : String
  exon2 : Option Int
  side2 : Char
  bases2 : Option Int
  separator : String
  comment : String
deriving DecidableEq

/-- A fully-expanded exon-fusion specification: the statement fields plus the
transcript names, strands, exon ranges and chromosomes added by
`exon_probe._expand_partial_spec`. -/
structure ExonSpec where
  gene1 : String
  exon1 : Int
  side1 : Char
  bases1 : Option Int
  gene2 : String
  exon2 : Int
  side2 : Char
  bases2 : Option Int
  separator : String
  comment : String
  transcript1 : String
  transcript2 : String
  strand1 : Char
  strand2 : Char
  exon_range_1 : SequenceRange
  exon_range_2 : SequenceRange
  chromosome1 : String
  chromosome2 : String
deriving DecidableEq

/-- Embedding of `exon_probe._expand_globs`.  The source collects the globbed fields and
`itertools.product`s their value lists in the order side1, side2, exon1,
exon2; an unglobbed field keeps its value, which is the same as a singleton
choice list.  A globbed exon number with no exon count raises `ExpandError`
(`none` here). -/
def expandGlobs (s : ExonStatement) (left_exons right_exons : Option Nat) :
    Option (List ExonStatement) := do
  let side1s := if s.side1 = '*' then ['+', '-'] else [s.side1]
  let side2s := if s.side2 = '*' then ['+', '-'] else [s.side2]
  let exon1s ← match s.exon1 with
    | some n => some [n]
    | none => match left_exons with
      | none => none
      | some c => some ((List.range c).map (fun n => ((n : Int) + 1)))
  let exon2s ← match s.exon2 with
    | some n => some [n]
    | none => match right_exons with
      | none => none
      | some c => some ((List.range c).map (fun n => ((n : Int) + 1)))
  pure (side1s.flatMap (fun a => side2s.flatMap (fun b =>
    exon1s.flatMap (fun c => exon2s.map (fun d =>
      { s with side1 := a, side2 := b, exon1 := some c, exon2 := some d })))))

/-- Embedding of `exon_probe._expand_partial_spec`: add transcript names, strands, exon
ranges and chromosomes to a glob-free statement.  An out-of-range exon lookup
raises `NoFeature`, which the caller catches and skips (`none` here). -/
def expandPartialSpec (s : ExonStatement) (row_1 row_2 : Transcript) :
    Option ExonSpec := do
  let first_exon ← s.exon1
  let second_exon ← s.exon2
  let exon_range_1 ← row_1.exon first_exon
  let exon_range_2 ← row_2.exon second_exon
  pure { gene1 := s.gene1, exon1 := first_exon, side1 := s.side1,
         bases1 := s.bases1,
         gene2 := s.gene2, exon2 := second_exon, side2 := s.side2,
         bases2 := s.bases2,
         separator := s.separator, comment := s.comment,
         transcript1 := row_1.name, transcript2 := row_2.name,
         strand1 := if row_1.plus_strand then '+' else '-',
         strand2 := if row_2.plus_strand then '+' else '-',
         exon_range_1 := exon_range_1, exon_range_2 := exon_range_2,
         chromosome1 := row_1.chromosome, chromosome2 := row_2.chromosome }

/-- Embedding of `exon_probe._expand`: for every pair of matching left/right transcripts,
expand the globs and fill in each glob-free statement, skipping `NoFeature`
failures.  The gene lookups (`annotation.lookup_gene`) are factored out: the
row lists are passed in directly.  NOTE the source calls `_expand_globs` with
`len(left.exons())` for BOTH sides (claim C7). -/
def exonExpand (specification : ExonStatement)
    (left_rows right_rows : List Transcript) : Option (List ExonSpec) := do
  let pairs := left_rows.flatMap (fun l => right_rows.map (fun r => (l, r)))
  let spec_lists ← pairs.mapM (fun p =>
    (expandGlobs specification
        (some p.1.exons.length) (some p.1.exons.length)).map
      (fun unglobbed => unglobbed.filterMap
        (fun u => expandPartialSpec u p.1 p.2)))
  pure spec_lists.flatten

/-- The coordinate key hashed by `exon_probe._coord_hash`.  (The Python code
hashes this tuple; the key itself is modelled, Python's integer hashing being
below the abstraction level.) -/
def exonCoordKey (s : ExonSpec) :
    String × SequenceRange × Char × String × SequenceRange × Char :=
  (s.chromosome1, s.exon_range_1, s.side1,
   s.chromosome2, s.exon_range_2, s.side2)

/-- The caching loop shared by the `explode` methods: keep a candidate only
when its key is not in the cache, then add the key. -/
def dedupGo {α κ : Type} [DecidableEq κ] (key : α → κ) :
    List κ → List α → List α
  | _, [] => []
  | cache, x :: xs =>
    if key x ∈ cache then dedupGo key cache xs
    else x :: dedupGo key (key x :: cache) xs

/-- Deduplication by a coordinate-derived key, starting from an empty cache:
the loop of `ExonProbe.explode` / `GeneSnpProbe.explode`. -/
def dedupByKey {α κ : Type} [DecidableEq κ] (key : α → κ) (xs : List α) :
    List α :=
  dedupGo key [] xs

/-- Embedding of `ExonProbe.explode` after parsing: expansion followed by deduplication on
the `_coord_hash` key.  (The breakpoint strings added to each surviving spec
do not change which specs survive.) -/
def exonExplode (statement : ExonStatement)
    (left_rows right_rows : List Transcript) : Option (List ExonSpec) :=
  (exonExpand statement left_rows right_rows).map (dedupByKey exonCoordKey)

/-- A fully-resolved gene-SNP candidate of `GeneSnpProbe.explode`: one per
matching transcript whose `nucleotide_index` resolves. -/
structure GeneSnpSpec where
  chromosome : String
  index : SequenceRange
  transcript_name : String
  strand : Char
  mutation : String
deriving DecidableEq

/-- The `(chromosome, index)` key cached by `GeneSnpProbe.explode`. -/
def geneSnpKey (s : GeneSnpSpec) : String × SequenceRange :=
  (s.chromosome, s.index)

/-- The deduplication pass of `GeneSnpProbe.explode` over its candidates. -/
def geneSnpDedup (candidates : List GeneSnpSpec) : List GeneSnpSpec :=
  dedupByKey geneSnpKey candidates

/-- Embedding of `exon_probe._get_range`: one side's genomic sub-range, taken from the
start of the exon when `(side == '+') == (strand == '+')`, else from the
end. -/
def getRange (exon_range : SequenceRange) (side strand : Char) (bases : Int) :
    Int × Int :=
  if (side == '+') == (strand == '+') then
    (exon_range.start, exon_range.start + bases)
  else
    (exon_range.stop - bases, exon_range.stop)

/-- Embedding of `ExonProbe.get_ranges`: the two half-probe ranges.  The first half is
reverse-complemented when `side1 == strand1`, the second when
`strand2 != side2`; for the `'->'` separator on a minus-strand left half the
two sides' data are swapped first.  A globbed `bases` field would raise a
`TypeError` in the source (`none` here). -/
def exonGetRanges (s : ExonSpec) : Option (SequenceRange × SequenceRange) := do
  let b1 ← s.bases1
  let b2 ← s.bases2
  let r1 := getRange s.exon_range_1 s.side1 s.strand1 b1
  let r2 := getRange s.exon_range_2 s.side2 s.strand2 b2
  let (chromosome1, chromosome2, strand1, strand2, side1, side2, p1, p2) :=
    if s.separator = "->" ∧ s.strand1 = '-' then
      (s.chromosome2, s.chromosome1, s.strand2, s.strand1,
       s.side2, s.side1, r2, r1)
    else
      (s.chromosome1, s.chromosome2, s.strand1, s.strand2,
       s.side1, s.side2, r1, r2)
  pure (mkSequenceRange chromosome1 p1.1 p1.2 (side1 == strand1) none none,
        mkSequenceRange chromosome2 p2.1 p2.2 (strand2 != side2) none none)

/-- Embedding of `sequence._get_rev_comp_flag`: the symmetric inversion predicate — true
when the two features are fused at the same end on the same strand, or at
opposite ends on opposite strands.  The source reads the sides from the
specification and the strands from the two annotation rows; they are passed
directly here. -/
def getRevCompFlag (side1 side2 strand1 strand2 : Char) : Bool :=
  if side1 = side2 ∧ strand1 = strand2 then true
  else if side1 ≠ side2 ∧ strand1 ≠ strand2 then true
  else false

/-- A DNA base; codons in `_DNA_CODON_TABLE` are 3-character strings over
`ACGT`, modelled as triples of bases so the 64-codon tables evaluate
cheaply. -/
inductive Base : Type
  | A
  | C
  | G
  | T
deriving DecidableEq

/-- A codon: a DNA triplet. -/
abbrev Codon : Type := Base × Base × Base

/-- Embedding of `itertools.product("ACGT", repeat=3)`: all 64 codons, used for the `'X'`
wildcard entry of the table. -/
def allCodons : List Codon :=
  [Base.A, Base.C, Base.G, Base.T].flatMap (fun a =>
    [Base.A, Base.C, Base.G, Base.T].flatMap (fun b =>
      [Base.A, Base.C, Base.G, Base.T].map (fun c => (a, b, c))))

open Base in
/-- Embedding of `amino_acid_probe._DNA_CODON_TABLE`, a dict from IUPAC amino-acid letters
(uppercase, plus `'*'` and `'X'`) to codon tuples; a missing key is a
`KeyError` (`none`). -/
def dnaCodonTable : Char → Option (List Codon)
  | 'A' => some [(G,C,T), (G,C,C), (G,C,A), (G,C,G)]
  | 'C' => some [(T,G,T), (T,G,C)]
  | 'D' => some [(G,A,T), (G,A,C)]
  | 'E' => some [(G,A,A), (G,A,G)]
  | 'F' => some [(T,T,T), (T,T,C)]
  | 'G' => some [(G,G,T), (G,G,C), (G,G,A), (G,G,G)]
  | 'H' => some [(C,A,T), (C,A,C)]
  | 'I' => some [(A,T,T), (A,T,C), (A,T,A)]
  | 'K' => some [(A,A,A), (A,A,G)]
  | 'L' => some [(C,T,T), (C,T,C), (C,T,A), (C,T,G), (T,T,A), (T,T,G)]
  | 'M' => some [(A,T,G)]
  | 'N' => some [(A,A,T), (A,A,C)]
  | 'P' => some [(C,C,T), (C,C,C), (C,C,A), (C,C,G)]
  | 'Q' => some [(C,A,A), (C,A,G)]
  | 'R' => some [(C,G,T), (C,G,C), (C,G,A), (C,G,G), (A,G,A), (A,G,G)]
  | 'S' => some [(T,C,T), (T,C,C), (T,C,A), (T,C,G), (A,G,T), (A,G,C)]
  | 'T' => some [(A,C,T), (A,C,C), (A,C,A), (A,C,G)]
  | 'V' => some [(G,T,T), (G,T,C), (G,T,A), (G,T,G)]
  | 'W' => some [(T,G,G)]
  | 'Y' => some [(T,A,T), (T,A,C)]
  | '*' => some [(T,A,A), (T,A,G), (T,G,A)]
  | 'X' => some allCodons
  | _ => none

/-- The inner loop of `AminoAcidProbe.explode` for one transcript: iterate
`itertools.product(reference_codons, mutation_codons)` and keep a pair only
when the mutation codon is not among the codons of the reference amino acid
(`same_codons`). -/
def aminoAcidPairs (reference_codons mutation_codons same_codons : List Codon) :
    List (Codon × Codon) :=
  (reference_codons.flatMap (fun rc =>
    mutation_codons.map (fun mc => (rc, mc)))).filter
    (fun p => !(same_codons.contains p.2))

/-- The number of probes `AminoAcidProbe.explode` appends for one transcript
whose codon resolves.  `reference_codons`/`mutation_codons` use the
upper-cased letters (lines 150–153 of the source), but the exclusion test on
line 157 looks up `partial_spec["reference_aa"]` WITHOUT upper-casing, so a
lowercase reference amino acid is a `KeyError` (claim C3). -/
def aminoAcidProbeCount (reference_aa mutation_aa : Char) : Option Nat := do
  let reference_codons ← dnaCodonTable reference_aa.toUpper
  let mutation_codons ← dnaCodonTable mutation_aa.toUpper
  let same_codons ← dnaCodonTable reference_aa
  pure (aminoAcidPairs reference_codons mutation_codons same_codons).length

/-- Embedding of `AbstractProbe._get_sequence` for one `SequenceRange`: `bases` is the
genome slice returned by `reference.bases` for that range (the slicing itself
is an external lookup and enters as an argument).  For a mutation-tagged range
the declared reference must case-insensitively equal the slice
(`_assert_reference_matches`, raising `ReferenceMismatch`), and the mutation
payload of the spec is emitted; otherwise the slice is returned. -/
def getSequencePiece (spec_reference spec_mutation : String)
    (range_is_mutation : Bool) (bases : String) : Except String String :=
  if range_is_mutation then
    if spec_reference.toLower = bases.toLower then Except.ok spec_mutation
    else Except.error "ReferenceMismatch"
  else Except.ok bases

/-- Embedding of `SnpProbe._mutate` of `snp_probe.py`: replace the base at
`bases//2 - 1` with the mutation base when the genome agrees with the declared
reference (case-insensitively), with the complemented mutation base when the
genome shows the exact complement of the declared reference, and raise
`ReferenceMismatch` otherwise.  The probe sequence is a character list;
`bases_spec` is the `/n` probe length from the statement. -/
def snpMutate (bases_spec : Int) (reference mutation : Char)
    (bases : List Char) : Except String (List Char) :=
  let mutation_index := Int.fdiv bases_spec 2 - 1
  match pyGet bases mutation_index with
  | none => Except.error "IndexError"
  | some genome_ref_base =>
    let genome_ref := genome_ref_base.toLower
    let spec_ref := reference.toLower
    if genome_ref = spec_ref then
      Except.ok (bases.take mutation_index.toNat ++ [mutation] ++
        bases.drop (mutation_index.toNat + 1))
    else if genome_ref = complement spec_ref then
      Except.ok (bases.take mutation_index.toNat ++ [complement mutation] ++
        bases.drop (mutation_index.toNat + 1))
    else
      Except.error "ReferenceMismatch"

/-- Fixture: the `FOO`/`ABC` row of `test_constants.py`. -/
def transcriptFOO : Transcript :=
  { name := "FOO", gene_id := "ABC", chromosome := "1", plus_strand := true,
    exonStarts := [1, 3], exonEnds := [2, 4], cdsStart := 1, cdsEnd := 4 }

/-- Fixture: the `BAR`/`DEF` row of `test_constants.py` (three exons). -/
def transcriptBAR : Transcript :=
  { name := "BAR", gene_id := "DEF", chromosome := "2", plus_strand := true,
    exonStarts := [7, 9, 11], exonEnds := [8, 10, 12], cdsStart := 7,
    cdsEnd := 12 }

/-- Fixture: the `BAZ`/`GHI` row of `test_constants.py` (minus strand). -/
def transcriptBAZ : Transcript :=
  { name := "BAZ", gene_id := "GHI", chromosome := "3", plus_strand := false,
    exonStarts := [10, 20], exonEnds := [15, 25], cdsStart := 10,
    cdsEnd := 23 }

/-- Fixture: the `BAZ2`/`GHI2` row of `test_constants.py` (one exon, all
coding). -/
def transcriptBAZ2 : Transcript :=
  { name := "BAZ2", gene_id := "GHI2", chromosome := "3", plus_strand := true,
    exonStarts := [9], exonEnds := [18], cdsStart := 9, cdsEnd := 18 }

/-- A transcript whose two coding exons overlap on the genome.  It satisfies
every stated `Transcript` invariant (parallel lists, each exon start < end,
CDS inside the exon envelope), but coding nucleotides 4–5 and 6–7 share
genomic coordinates. -/
def transcriptOverlap : Transcript :=
  { name := "OV", gene_id := "OV", chromosome := "1", plus_strand := true,
    exonStarts := [0, 3], exonEnds := [5, 8], cdsStart := 0, cdsEnd := 8 }

/-- A plus-strand transcript whose first codon crosses an exon junction:
coding nucleotides 1, 2 sit at genomic 0, 1 and nucleotide 3 at genomic
10. -/
def transcriptJunction : Transcript :=
  { name := "TJ", gene_id := "TJ", chromosome := "1", plus_strand := true,
    exonStarts := [0, 10], exonEnds := [2, 20], cdsStart := 0, cdsEnd := 20 }

/-- The exon-fusion statement `ABC#exon[*]+2 / DEF#exon[*]-3` of
`test_exon_probe.test_expand_glob_exon_numbers`, parsed. -/
def statementGlobExons : ExonStatement :=
  { gene1 := "ABC", exon1 := none, side1 := '+', bases1 := some 2,
    gene2 := "DEF", exon2 := none, side2 := '-', bases2 := some 3,
    separator := "/", comment := "" }

/-- A fully concrete `'/'`-separated exon-fusion candidate fused
start-to-end on the plus strand (`side1 = '+'`, `side2 = '-'`, both strands
`'+'`). -/
def specStartEndPlus : ExonSpec :=
  { gene1 := "ABC", exon1 := 1, side1 := '+', bases1 := some 2,
    gene2 := "DEF", exon2 := 3, side2 := '-', bases2 := some 2,
    separator := "/", comment := "",
    transcript1 := "FOO", transcript2 := "BAR",
    strand1 := '+', strand2 := '+',
    exon_range_1 := mkSequenceRange "1" 0 10 false none none,
    exon_range_2 := mkSequenceRange "2" 20 30 false none none,
    chromosome1 := "1", chromosome2 := "2" }

/-! ## Theorems -/

/-- C1 (amended): for `SequenceRange`s `a`, `b` with equal chromosome,
mutation and reverse-complement fields and `a.end == b.start`, `a.adjacent b`
is true and `a.concat b` succeeds with chromosome `a.chromosome`, start
`a.start`, end `b.end`, the same reverse-complement tag, no reference, and a
mutation equal to `a.mutation` unless the reverse-complement flag is set and
the mutation is not `None` — in which case the constructor reverse-complements
the stored payload once more; and `concat` fails on every non-adjacent pair. -/
theorem adjacent_concat_spec :
    (∀ a b : SequenceRange,
      a.chromosome = b.chromosome → a.mutation = b.mutation →
      a.reverse_complement = b.reverse_complement → a.stop = b.start →
      a.adjacent b = true ∧
      a.concat b = some ⟨a.chromosome, a.start, b.stop, a.reverse_complement,
        none,
        if a.reverse_complement && a.mutation.isSome then
          a.mutation.map reverse_complement
        else a.mutation⟩) ∧
    (∀ a b : SequenceRange, a.adjacent b = false → a.concat b = none) := by
  constructor
  · intro a b hc hm hr he
    have hadj : a.adjacent b = true := by
      simp [SequenceRange.adjacent, hc, hm, hr, he]
    refine ⟨hadj, ?_⟩
    simp [SequenceRange.concat, hadj, he, mkSequenceRange]
  · intro a b h
    simp [SequenceRange.concat, h]

/-- Witness for C1: a concrete adjacent pair (flag off) concatenates to the
combined range with the mutation tag preserved, as the amended claim states. -/
theorem adjacent_concat_spec_witness :
    (mkSequenceRange "1" 0 5 false (some "r") (some "A")).adjacent
        (mkSequenceRange "1" 5 9 false none (some "A")) = true ∧
    (mkSequenceRange "1" 0 5 false (some "r") (some "A")).concat
        (mkSequenceRange "1" 5 9 false none (some "A")) =
      some ⟨"1", 0, 9, false, none, some "A"⟩ :=
  adjacent_concat_spec.1
    (mkSequenceRange "1" 0 5 false (some "r") (some "A"))
    (mkSequenceRange "1" 5 9 false none (some "A"))
    (by decide) (by decide) (by decide) (by decide)

/-- Counterexample for C1 as stated: two adjacent ranges with the
reverse-complement flag set and equal (stored) mutation payloads, whose
concatenation does NOT carry the same mutation tag — the constructor
reverse-complements the stored payload a second time. -/
theorem concat_mutation_tag_counterexample :
    (mkSequenceRange "1" 0 1 true none (some "AC")).adjacent
        (mkSequenceRange "1" 1 2 true none (some "AC")) = true ∧
    (mkSequenceRange "1" 0 1 true none (some "AC")).mutation =
      (mkSequenceRange "1" 1 2 true none (some "AC")).mutation ∧
    ((mkSequenceRange "1" 0 1 true none (some "AC")).concat
        (mkSequenceRange "1" 1 2 true none (some "AC"))).map
      SequenceRange.mutation ≠
      some ((mkSequenceRange "1" 0 1 true none (some "AC")).mutation) := by
  decide

/-- C10: concatenating two adjacent reverse-complement-flagged ranges whose
stored mutation payload is `m` produces a range whose mutation is the reverse
complement of `m`: `concat` rebuilds the result through the constructor with
the flag set, so the stored payload is transformed a second time. -/
theorem concat_reverse_complements_mutation (a b : SequenceRange) (m : String)
    (hrc : a.reverse_complement = true) (hm : a.mutation = some m)
    (hadj : a.adjacent b = true) :
    ∃ r, a.concat b = some r ∧ r.mutation = some (reverse_complement m) := by
  have hor : (a.start == b.stop) = true ∨ (a.stop == b.start) = true := by
    simp only [SequenceRange.adjacent, Bool.and_eq_true, Bool.or_eq_true]
      at hadj
    exact hadj.2
  by_cases h : (a.stop == b.start) = true
  · refine ⟨mkSequenceRange a.chromosome a.start b.stop a.reverse_complement
      none a.mutation, ?_, ?_⟩
    · simp [SequenceRange.concat, hadj, h]
    · simp [mkSequenceRange, hrc, hm]
  · have h' : (a.start == b.stop) = true := by
      rcases hor with h' | h'
      · exact h'
      · exact absurd h' h
    refine ⟨mkSequenceRange a.chromosome b.start a.stop a.reverse_complement
      none a.mutation, ?_, ?_⟩
    · simp [SequenceRange.concat, hadj, h, h']
    · simp [mkSequenceRange, hrc, hm]

/-- Witness for C10, at the stored payload `"GT"` (built from `"AC"` by the
constructor). -/
theorem concat_reverse_complements_mutation_witness :
    ∃ r, (mkSequenceRange "1" 0 1 true none (some "AC")).concat
        (mkSequenceRange "1" 1 2 true none (some "AC")) = some r ∧
      r.mutation = some (reverse_complement "GT") :=
  concat_reverse_complements_mutation
    (mkSequenceRange "1" 0 1 true none (some "AC"))
    (mkSequenceRange "1" 1 2 true none (some "AC"))
    "GT" (by decide) (by decide) (by decide)

theorem intRange_cons {a b : Int} (h : a < b) :
    intRange a b = a :: intRange (a + 1) b := by
  unfold intRange
  have h1 : (b - a).toNat = (b - (a + 1)).toNat + 1 := by omega
  rw [h1, List.range_succ_eq_map, List.map_cons, List.map_map]
  have h2 : ((fun k : Nat => a + (k : Int)) ∘ Nat.succ) =
      fun k : Nat => (a + 1) + (k : Int) := by
    funext k
    simp only [Function.comp_apply]
    push_cast
    ring
  rw [h2]
  norm_num

theorem sum_lengths_aux (plus : Bool) (l : List SequenceRange)
    (hex : ∀ e ∈ l, e.start ≤ e.stop) :
    (l.map (fun exon => exon.stop - exon.start)).sum =
      ((l.flatMap (fun exon =>
        let nucleotide_range := intRange exon.start exon.stop
        if !plus then nucleotide_range.reverse else nucleotide_range)).length :
          Int) := by
  induction l with
  | nil => simp
  | cons e rest ih =>
    have he : e.start ≤ e.stop := hex e (by simp)
    have hr :
        (if !plus then (intRange e.start e.stop).reverse
          else intRange e.start e.stop).length = (e.stop - e.start).toNat := by
      cases plus <;> simp [intRange]
    have ih' := ih (fun x hx => hex x (List.mem_cons_of_mem e hx))
    simp only [List.map_cons, List.sum_cons, List.flatMap_cons,
      List.length_append, ih', hr]
    push_cast
    rw [Int.toNat_of_nonneg (by omega)]

theorem len_eq_coords_length (t : Transcript)
    (hex : ∀ e ∈ t.coding_exons, e.start ≤ e.stop) :
    t.len = (t.coding_coordinates.length : Int) :=
  sum_lengths_aux t.plus_strand t.coding_exons hex

theorem baseIndexGo_finds (t : Transcript) (s : Int) :
    ∀ (m k j : Nat),
      t.coding_coordinates.Nodup →
      t.coding_coordinates.get? j = some s →
      k ≤ j → j < k + m →
      baseIndexGo t s (intRange ((k : Int) + 1) ((k : Int) + (m : Int) + 1)) =
        some ((j : Int) + 1) := by
  intro m
  induction m with
  | zero => intro k j _ _ hkj hjm; omega
  | succ m ih =>
    intro k j hnd hj hkj hjm
    have hlt : (k : Int) + 1 < (k : Int) + (m + 1 : Nat) + 1 := by
      push_cast; omega
    rw [intRange_cons hlt]
    have hjlen : j < t.coding_coordinates.length := List.get?_eq_some.mp hj |>.1
    have hklen : k < t.coding_coordinates.length := by omega
    have hti : t.transcript_index ((k : Int) + 1) =
        some (t.coding_coordinates.get ⟨k, hklen⟩) := by
      unfold Transcript.transcript_index
      rw [if_neg (by omega)]
      have : (((k : Int) + 1) - 1).toNat = k := by omega
      rw [this, List.get?_eq_get hklen]
    simp only [baseIndexGo, hti]
    by_cases hk : k = j
    · subst hk
      have hsk : s = t.coding_coordinates.get ⟨k, hklen⟩ := by
        rw [List.get?_eq_get hklen] at hj
        exact (Option.some_inj.mp hj).symm
      rw [if_pos hsk]
    · have hs : ¬ s = t.coding_coordinates.get ⟨k, hklen⟩ := by
        intro hcontra
        have hk' : t.coding_coordinates.get? k = some s := by
          rw [List.get?_eq_get hklen, hcontra]
        exact hk (List.get?_inj hklen hnd (hk'.trans hj.symm))
      rw [if_neg hs]
      have harg : intRange ((k : Int) + 1 + 1) ((k : Int) + (m + 1 : Nat) + 1) =
          intRange (((k + 1 : Nat) : Int) + 1) (((k + 1 : Nat) : Int) + (m : Int) + 1) := by
        push_cast
        ring_nf
      rw [harg]
      exact ih (k + 1) j hnd hj (by omega) (by omega)

/-- C2 (amended): for every transcript whose coding exons are well-formed
(`start ≤ end`) and whose coding nucleotides occupy pairwise-distinct genomic
coordinates (no overlapping coding exons), and every `1 ≤ i ≤ len(t)`,
`t.base_index (t.nucleotide_index i) = i`. -/
theorem base_index_nucleotide_index_roundtrip (t : Transcript) (i : Int)
    (hex : ∀ e ∈ t.coding_exons, e.start ≤ e.stop)
    (hnd : t.coding_coordinates.Nodup)
    (h1 : 1 ≤ i) (h2 : i ≤ t.len) :
    (t.nucleotide_index i).bind t.base_index = some i := by
  have hlen := len_eq_coords_length t hex
  have hjlen : (i - 1).toNat < t.coding_coordinates.length := by omega
  have hget := List.get?_eq_get hjlen
  have hni : t.nucleotide_index i =
      some (mkSequenceRange t.chromosome
        (t.coding_coordinates.get ⟨(i - 1).toNat, hjlen⟩)
        (t.coding_coordinates.get ⟨(i - 1).toNat, hjlen⟩ + 1) false none none) := by
    unfold Transcript.nucleotide_index Transcript.transcript_index
    rw [if_neg (by omega), hget]
    rfl
  rw [hni, Option.some_bind]
  unfold Transcript.base_index
  have hstart : (mkSequenceRange t.chromosome
      (t.coding_coordinates.get ⟨(i - 1).toNat, hjlen⟩)
      (t.coding_coordinates.get ⟨(i - 1).toNat, hjlen⟩ + 1) false none
      none).start = t.coding_coordinates.get ⟨(i - 1).toNat, hjlen⟩ := rfl
  rw [hstart]
  have hrange : intRange 1 (t.len + 1) =
      intRange (((0 : Nat) : Int) + 1)
        (((0 : Nat) : Int) + ((t.coding_coordinates.length : Nat) : Int) + 1) := by
    rw [hlen]; push_cast; ring_nf
  rw [hrange]
  have := baseIndexGo_finds t (t.coding_coordinates.get ⟨(i - 1).toNat, hjlen⟩)
    t.coding_coordinates.length 0 (i - 1).toNat hnd (by rw [hget])
    (by omega) (by omega)
  rw [this]
  congr 1
  omega

/-- Witness for C2 at the `FOO` fixture transcript (coding coordinates
`[1, 3]`) and `i = 2`. -/
theorem base_index_nucleotide_index_roundtrip_witness :
    (transcriptFOO.nucleotide_index 2).bind transcriptFOO.base_index =
      some 2 :=
  base_index_nucleotide_index_roundtrip transcriptFOO 2 (by decide) (by decide)
    (by decide) (by decide)

/-- Counterexample for C2 as stated: `transcriptOverlap` satisfies every
stated `Transcript` invariant and has `len = 10`, but nucleotide 6 sits at
genomic coordinate 3 — already occupied by nucleotide 4 — so the linear scan
of `base_index` returns 4, not 6. -/
theorem base_index_roundtrip_counterexample :
    (1 : Int) ≤ 6 ∧ (6 : Int) ≤ transcriptOverlap.len ∧
    (transcriptOverlap.nucleotide_index 6).bind transcriptOverlap.base_index =
      some 4 ∧
    (transcriptOverlap.nucleotide_index 6).bind transcriptOverlap.base_index ≠
      some 6 := by
  decide

theorem aminoAcidPairs_filter_map (r : Codon)
    (mutation_codons same_codons : List Codon) :
    ((mutation_codons.map (fun mc => (r, mc))).filter
        (fun p => !(same_codons.contains p.2))).length =
      (mutation_codons.filter (fun m => !(same_codons.contains m))).length := by
  rw [List.filter_map, List.length_map]
  rfl

theorem aminoAcidPairs_length
    (reference_codons mutation_codons same_codons : List Codon) :
    (aminoAcidPairs reference_codons mutation_codons same_codons).length =
      reference_codons.length *
        (mutation_codons.filter (fun m => !(same_codons.contains m))).length := by
  unfold aminoAcidPairs
  induction reference_codons with
  | nil => simp
  | cons r rs ih =>
    simp only [List.flatMap_cons, List.filter_append, List.length_append, ih,
      List.length_cons, aminoAcidPairs_filter_map r mutation_codons same_codons]
    ring

/-- C3: the per-transcript expansion of an amino-acid substitution generates
`|reference codons| * |mutation codons not encoding the reference amino acid|`
probes; in particular `M2W` gives 1, `M2*` gives 3, `M2X` gives 63.  A
LOWERCASE reference amino acid, accepted by the statement grammar, instead
dies with a `KeyError` (the `none` case), because line 157 of
`amino_acid_probe.py` omits the `.upper()` used on lines 150–153. -/
theorem amino_acid_probe_counts :
    (∀ reference_codons mutation_codons same_codons : List Codon,
      (aminoAcidPairs reference_codons mutation_codons same_codons).length =
        reference_codons.length *
          (mutation_codons.filter
            (fun m => !(same_codons.contains m))).length) ∧
    aminoAcidProbeCount 'M' 'W' = some 1 ∧
    aminoAcidProbeCount 'M' '*' = some 3 ∧
    aminoAcidProbeCount 'M' 'X' = some 63 ∧
    aminoAcidProbeCount 'L' '*' = some 18 ∧
    aminoAcidProbeCount 'm' 'W' = none :=
  ⟨aminoAcidPairs_length, by decide, by decide, by decide, by decide,
    by decide⟩

/-- C4: `ReferenceMismatch` semantics.  For a mutation-tagged range,
`_get_sequence` fails iff the declared reference does not case-insensitively
equal the genome slice, and emits the spec's mutation payload when it does;
for genome-buffered SNP probes, `_mutate` fails iff the central genome base
matches neither the declared reference nor its exact complement
(case-insensitively), and in the complement case the complemented mutation
base is emitted in place of the original. -/
theorem reference_mismatch_spec
    (spec_reference spec_mutation bases_str : String)
    (bases_spec : Int) (reference mutation : Char) (bases : List Char)
    (gb : Char)
    (hgb : pyGet bases (Int.fdiv bases_spec 2 - 1) = some gb) :
    ((∃ e, getSequencePiece spec_reference spec_mutation true bases_str =
        Except.error e) ↔ ¬ (spec_reference.toLower = bases_str.toLower)) ∧
    (spec_reference.toLower = bases_str.toLower →
      getSequencePiece spec_reference spec_mutation true bases_str =
        Except.ok spec_mutation) ∧
    ((∃ e, snpMutate bases_spec reference mutation bases = Except.error e) ↔
      (gb.toLower ≠ reference.toLower ∧
        gb.toLower ≠ complement reference.toLower)) ∧
    (gb.toLower = complement reference.toLower →
      gb.toLower ≠ reference.toLower →
      snpMutate bases_spec reference mutation bases =
        Except.ok (bases.take (Int.fdiv bases_spec 2 - 1).toNat ++
          [complement mutation] ++
          bases.drop ((Int.fdiv bases_spec 2 - 1).toNat + 1))) := by
  refine ⟨?_, ?_, ?_, ?_⟩
  · by_cases h : spec_reference.toLower = bases_str.toLower
    · simp [getSequencePiece, h]
    · simp [getSequencePiece, h]
  · intro h
    simp [getSequencePiece, h]
  · simp only [snpMutate, hgb]
    by_cases hA : gb.toLower = reference.toLower
    · simp [hA]
    · by_cases hB : gb.toLower = complement reference.toLower
      · rw [if_neg hA, if_pos hB]
        simp [hA, hB]
      · rw [if_neg hA, if_neg hB]
        simp [hA, hB]
  · intro hB hA
    simp only [snpMutate, hgb]
    rw [if_neg hA, if_pos hB]

/-- Witness for C4: reference `"C"` matches slice `"c"`; and a SNP probe over
`['a','c','g','t']` with length 4, declared reference `'g'` and mutation
`'a'`: the central base `'c'` is the complement of `'g'`, so the complemented
mutation `'t'` is emitted and no `ReferenceMismatch` is raised. -/
theorem reference_mismatch_spec_witness :
    ((∃ e, getSequencePiece "C" "T" true "c" = Except.error e) ↔
      ¬ ("C".toLower = "c".toLower)) ∧
    ("C".toLower = "c".toLower →
      getSequencePiece "C" "T" true "c" = Except.ok "T") ∧
    ((∃ e, snpMutate 4 'g' 'a' ['a', 'c', 'g', 't'] = Except.error e) ↔
      ('c'.toLower ≠ 'g'.toLower ∧ 'c'.toLower ≠ complement 'g'.toLower)) ∧
    ('c'.toLower = complement 'g'.toLower → 'c'.toLower ≠ 'g'.toLower →
      snpMutate 4 'g' 'a' ['a', 'c', 'g', 't'] =
        Except.ok (['a', 'c', 'g', 't'].take (Int.fdiv 4 2 - 1).toNat ++
          [complement 'a'] ++
          ['a', 'c', 'g', 't'].drop ((Int.fdiv 4 2 - 1).toNat + 1))) :=
  reference_mismatch_spec "C" "T" "c" 4 'g' 'a' ['a', 'c', 'g', 't'] 'c'
    (by decide)

/-- C5 (intended behaviour; the shipped code never reaches it — see the claim
record): the flank lengths satisfy `left = (length - mutation_len) // 2`
(floor) and `right = length - mutation_len - left`, so the three segments sum
to `length`; the genome-buffered variant returns exactly the flank/mutation/
flank triple; and a minus-strand transcript-buffered variant swaps the two
flank lengths before the `transcript_range` lookups and reverses the produced
list before returning it. -/
theorem variant_sequence_ranges_spec (v : Variant)
    (hm : (v.mutation.length : Int) ≤ v.length) :
    Int.fdiv (v.length - (v.mutation.length : Int)) 2 +
        (v.mutation.length : Int) +
        ((v.length - (v.mutation.length : Int)) -
          Int.fdiv (v.length - (v.mutation.length : Int)) 2) = v.length ∧
    0 ≤ Int.fdiv (v.length - (v.mutation.length : Int)) 2 ∧
    GenomeVariant.sequence_ranges v =
      (mkSequenceRange v.index.chromosome
        (v.index.start - Int.fdiv (v.length - (v.mutation.length : Int)) 2)
        v.index.start false none none,
       mkSequenceRange v.index.chromosome v.index.start
        (v.index.start + (v.reference.length : Int))
        (!v.transcript.plus_strand) none (some v.mutation),
       mkSequenceRange v.index.chromosome
        (v.index.start + (v.reference.length : Int))
        (v.index.start + (v.reference.length : Int) +
          ((v.length - (v.mutation.length : Int)) -
            Int.fdiv (v.length - (v.mutation.length : Int)) 2))
        false none none) ∧
    (v.transcript.plus_strand = false →
      ∀ l, TranscriptVariant.sequence_ranges v = some l →
        ∃ base left_part right_part,
          v.transcript.base_index v.index = some base ∧
          v.transcript.transcript_range
            (base - ((v.length - (v.mutation.length : Int)) -
              Int.fdiv (v.length - (v.mutation.length : Int)) 2)) base =
            some left_part ∧
          v.transcript.transcript_range
            (base + (v.reference.length : Int))
            (base + (v.reference.length : Int) +
              Int.fdiv (v.length - (v.mutation.length : Int)) 2) =
            some right_part ∧
          l = (left_part ++
            [mkSequenceRange v.index.chromosome v.index.start
              (v.index.start + (v.reference.length : Int)) true none
              (some v.mutation)] ++ right_part).reverse) := by
  refine ⟨by ring, Int.fdiv_nonneg (by omega) (by omega), rfl, ?_⟩
  intro hminus l hl
  simp only [TranscriptVariant.sequence_ranges, hminus, Bool.not_false,
    if_true, Option.bind_eq_bind] at hl
  cases hbase : v.transcript.base_index v.index with
  | none => rw [hbase] at hl; simp at hl
  | some base =>
    rw [hbase] at hl
    simp only [Option.some_bind] at hl
    cases hleft : v.transcript.transcript_range
        (base - ((v.length - (v.mutation.length : Int)) -
          Int.fdiv (v.length - (v.mutation.length : Int)) 2)) base with
    | none => rw [hleft] at hl; simp at hl
    | some left_part =>
      rw [hleft] at hl
      simp only [Option.some_bind] at hl
      cases hright : v.transcript.transcript_range
          (base + (v.reference.length : Int))
          (base + (v.reference.length : Int) +
            Int.fdiv (v.length - (v.mutation.length : Int)) 2) with
      | none => rw [hright] at hl; simp at hl
      | some right_part =>
        rw [hright] at hl
        simp only [Option.some_bind, hminus, Bool.false_eq_true, if_false,
          pure, Option.some_inj] at hl
        exact ⟨base, left_part, right_part, rfl, hleft, hright, hl.symm⟩

/-- Witness for C5's intended-behaviour theorem at a minus-strand variant over
the `BAZ` fixture transcript. -/
theorem variant_sequence_ranges_spec_witness :
    Int.fdiv (((5 : Int)) - ((("T").length : Nat) : Int)) 2 +
        ((("T").length : Nat) : Int) +
        ((((5 : Int)) - ((("T").length : Nat) : Int)) -
          Int.fdiv (((5 : Int)) - ((("T").length : Nat) : Int)) 2) = (5 : Int) ∧
    0 ≤ Int.fdiv (((5 : Int)) - ((("T").length : Nat) : Int)) 2 ∧
    GenomeVariant.sequence_ranges
      ⟨transcriptBAZ, mkSequenceRange "3" 14 15 false none none, "A", "T", 5⟩ =
      (mkSequenceRange "3" (14 - 2) 14 false none none,
       mkSequenceRange "3" 14 (14 + 1) true none (some "T"),
       mkSequenceRange "3" (14 + 1) (14 + 1 + 2) false none none) ∧
    (transcriptBAZ.plus_strand = false →
      ∀ l, TranscriptVariant.sequence_ranges
          ⟨transcriptBAZ, mkSequenceRange "3" 14 15 false none none,
            "A", "T", 5⟩ = some l →
        ∃ base left_part right_part,
          transcriptBAZ.base_index (mkSequenceRange "3" 14 15 false none none) =
            some base ∧
          transcriptBAZ.transcript_range (base - 2) base = some left_part ∧
          transcriptBAZ.transcript_range (base + 1) (base + 1 + 2) =
            some right_part ∧
          l = (left_part ++
            [mkSequenceRange "3" 14 (14 + 1) true none (some "T")] ++
            right_part).reverse) := by
  have h := variant_sequence_ranges_spec
    ⟨transcriptBAZ, mkSequenceRange "3" 14 15 false none none, "A", "T", 5⟩
    (by decide)
  exact h

theorem dedupGo_filter {α κ : Type} [DecidableEq κ] (key : α → κ) (k : κ) :
    ∀ (xs : List α) (cache : List κ),
      (dedupGo key cache xs).filter (fun a => decide (key a = k)) =
        if k ∈ cache then []
        else (xs.filter (fun a => decide (key a = k))).take 1 := by
  intro xs
  induction xs with
  | nil =>
    intro cache
    simp [dedupGo]
  | cons x xs ih =>
    intro cache
    by_cases hmem : key x ∈ cache
    · rw [dedupGo, if_pos hmem, ih]
      by_cases hk : k ∈ cache
      · rw [if_pos hk, if_pos hk]
      · have hxk : ¬ (key x = k) := fun h => hk (h ▸ hmem)
        rw [if_neg hk, if_neg hk, List.filter_cons,
          if_neg (by simpa using hxk)]
    · rw [dedupGo, if_neg hmem, List.filter_cons]
      by_cases hxk : key x = k
      · have hkc : ¬ k ∈ cache := fun h => hmem (hxk ▸ h)
        rw [if_pos (by simpa using hxk), ih,
          if_pos (hxk ▸ List.mem_cons_self (key x) cache),
          if_neg hkc, List.filter_cons, if_pos (by simpa using hxk)]
        simp
      · rw [if_neg (by simpa using hxk), ih]
        by_cases hk : k ∈ cache
        · rw [if_pos (List.mem_cons_of_mem _ hk), if_pos hk]
        · have hnotc : ¬ k ∈ key x :: cache := by
            simp only [List.mem_cons, not_or]
            exact ⟨fun h => hxk h.symm, hk⟩
          rw [if_neg hnotc, if_neg hk, List.filter_cons,
            if_neg (by simpa using hxk)]

/-- C6: in statement expansion, deduplication keeps, for every
coordinate-derived key, exactly the FIRST candidate carrying that key and
drops all later ones — stated for `ExonProbe.explode`'s `_coord_hash` key
(chromosomes, exon ranges, sides) and `GeneSnpProbe.explode`'s
`(chromosome, index)` key: filtering the returned list by any key equals
taking the first element of the same filter over the pre-deduplication
candidate stream. -/
theorem explode_dedup_first :
    (∀ (st : ExonStatement) (lrows rrows : List Transcript)
      (k : String × SequenceRange × Char × String × SequenceRange × Char),
      ((exonExplode st lrows rrows).getD []).filter
          (fun s => decide (exonCoordKey s = k)) =
        (((exonExpand st lrows rrows).getD []).filter
          (fun s => decide (exonCoordKey s = k))).take 1) ∧
    (∀ (candidates : List GeneSnpSpec) (k : String × SequenceRange),
      (geneSnpDedup candidates).filter (fun s => decide (geneSnpKey s = k)) =
        (candidates.filter (fun s => decide (geneSnpKey s = k))).take 1) := by
  constructor
  · intro st lrows rrows k
    cases h : exonExpand st lrows rrows with
    | none => simp [exonExplode, h]
    | some l =>
      simp only [exonExplode, h, Option.map_some', Option.getD_some]
      unfold dedupByKey
      rw [dedupGo_filter]
      simp
  · intro candidates k
    unfold geneSnpDedup dedupByKey
    rw [dedupGo_filter]
    simp

/-- C7: the code at the failing input of the repository's own
`test_expand_glob_exon_numbers` fixture — left transcript `FOO` has 2 exons,
right transcript `BAR` has 3, yet both wildcard exon indices are expanded to
`1..2` because `_expand` passes `len(left.exons())` for BOTH arguments of
`_expand_globs`; the pairs `(1,3)` and `(2,3)` expected by the test are
missing. -/
theorem exon_glob_right_bound_failing :
    (exonExplode statementGlobExons [transcriptFOO] [transcriptBAR]).map
        (List.map (fun sp => (sp.exon1, sp.exon2))) =
      some [(1, 1), (1, 2), (2, 1), (2, 2)] ∧
    transcriptFOO.exons.length = 2 ∧
    transcriptBAR.exons.length = 3 := by
  decide

/-- Counterexample for C8 as stated: on `transcriptJunction` the first codon
crosses an exon junction.  Resolving nucleotide `3*1-2 = 1` gives genomic
position 0, and widening toward higher coordinates would give `[0, 3)`; the
code instead resolves nucleotide `3*1 = 3` (genomic 10) and returns
`[8, 11)`. -/
theorem codon_index_junction_counterexample :
    (3 : Int) * 1 ≤ transcriptJunction.len ∧
    transcriptJunction.plus_strand = true ∧
    transcriptJunction.transcript_index (1 * 3 - 2) = some 0 ∧
    transcriptJunction.codon_index 1 none none =
      some (mkSequenceRange "1" 8 11 false none none) ∧
    transcriptJunction.codon_index 1 none none ≠
      some (mkSequenceRange "1" 0 3 false none none) := by
  decide

/-- C8 (amended): `codon_index i` resolves coding nucleotide `i*3` (the last
base of the codon) to a genomic position and widens downward (`[g-2, g+1)`)
on the plus strand, upward (`[g, g+3)`) on the minus strand, tagging the
given reference and mutation payloads.  When the codon lies within a single
exon — nucleotide `3*i` sits two genomic positions above (plus strand) or
below (minus strand) nucleotide `3*i-2` at `g1` — this coincides with the
claim's description: the window starting from `g1` widened toward higher
(plus) or lower (minus) genomic coordinates. -/
theorem codon_index_spec (t : Transcript) (i : Int)
    (reference mutation : Option String) (g1 : Int)
    (h1 : t.transcript_index (i * 3 - 2) = some g1)
    (h3 : t.transcript_index (i * 3) =
      some (if t.plus_strand then g1 + 2 else g1 - 2)) :
    t.codon_index i reference mutation =
      some (mkSequenceRange t.chromosome
        (if t.plus_strand then g1 else g1 - 2)
        (if t.plus_strand then g1 + 3 else g1 + 1) false reference mutation) := by
  unfold Transcript.codon_index
  rw [h3]
  cases hp : t.plus_strand with
  | true =>
    simp only [hp, if_true, Option.map_some']
    congr 2
    · omega
    · omega
  | false =>
    simp only [hp, if_false, Option.map_some', Bool.false_eq_true]
    congr 2
    omega

/-- Witness for C8 at the single-exon `BAZ2` fixture transcript,
codon 1 (`g1 = 9`, nucleotide 3 at `11 = 9 + 2`). -/
theorem codon_index_spec_witness :
    transcriptBAZ2.codon_index 1 (some "CCC") (some "ATG") =
      some (mkSequenceRange transcriptBAZ2.chromosome
        (if transcriptBAZ2.plus_strand then 9 else 9 - 2)
        (if transcriptBAZ2.plus_strand then 9 + 3 else 9 + 1) false
        (some "CCC") (some "ATG")) :=
  codon_index_spec transcriptBAZ2 1 (some "CCC") (some "ATG") 9
    (by decide) (by decide)

/-- Counterexample for C9 as stated: a fully concrete `'/'`-separated
candidate (side1 `'+'`, side2 `'-'`, both strands `'+'`) in which BOTH
returned ranges carry `reverse_complement = true` — not exactly one. -/
theorem get_ranges_both_flagged_counterexample :
    specStartEndPlus.separator = "/" ∧
    (exonGetRanges specStartEndPlus).map
        (fun p => (p.1.reverse_complement, p.2.reverse_complement)) =
      some (true, true) := by
  decide

/-- C9 (amended): for a fully concrete `'/'`-separated exon-fusion candidate
whose sides and strands are `'+'`/`'-'`, EXACTLY ONE of the two ranges
returned by `get_ranges` carries `reverse_complement = true` precisely when
`_get_rev_comp_flag`'s symmetric predicate holds (same side and same strand,
or different sides and different strands); when the predicate is false, both
or neither are flagged. -/
theorem get_ranges_rev_comp_parity (s : ExonSpec) (r1 r2 : SequenceRange)
    (hsep : s.separator = "/")
    (hs1 : s.side1 = '+' ∨ s.side1 = '-')
    (hs2 : s.side2 = '+' ∨ s.side2 = '-')
    (ht1 : s.strand1 = '+' ∨ s.strand1 = '-')
    (ht2 : s.strand2 = '+' ∨ s.strand2 = '-')
    (h : exonGetRanges s = some (r1, r2)) :
    (r1.reverse_complement != r2.reverse_complement) =
      getRevCompFlag s.side1 s.side2 s.strand1 s.strand2 := by
  cases hb1 : s.bases1 with
  | none => simp [exonGetRanges, hb1] at h
  | some b1 =>
    cases hb2 : s.bases2 with
    | none => simp [exonGetRanges, hb1, hb2] at h
    | some b2 =>
      have hswap : ¬ (s.separator = "->" ∧ s.strand1 = '-') := by
        rw [hsep]; simp
      simp only [exonGetRanges, hb1, hb2, Option.some_bind, if_neg hswap,
        Option.some_inj, Prod.mk.injEq] at h
      obtain ⟨rfl, rfl⟩ := h
      show ((s.side1 == s.strand1) != (s.strand2 != s.side2)) =
        getRevCompFlag s.side1 s.side2 s.strand1 s.strand2
      rcases hs1 with h | h <;> rcases hs2 with h' | h' <;>
        rcases ht1 with h'' | h'' <;> rcases ht2 with h''' | h''' <;>
        rw [h, h', h'', h'''] <;> decide

/-- Witness for C9 at the `specStartEndPlus` candidate: both halves are
flagged, so "exactly one" is false, matching the false symmetric
predicate. -/
theorem get_ranges_rev_comp_parity_witness :
    ((mkSequenceRange "1" 0 2 true none none).reverse_complement !=
      (mkSequenceRange "2" 28 30 true none none).reverse_complement) =
      getRevCompFlag specStartEndPlus.side1 specStartEndPlus.side2
        specStartEndPlus.strand1 specStartEndPlus.strand2 :=
  get_ranges_rev_comp_parity specStartEndPlus
    (mkSequenceRange "1" 0 2 true none none)
    (mkSequenceRange "2" 28 30 true none none)
    (by decide) (by decide) (by decide) (by decide) (by decide) (by decide)

end ProbeGen
